import Mathlib

/-!
Verification of the jobs-sitemap generator (generate-sitemap.js).

The development shallowly embeds the script's pure core: the XML escaping
function, the sitemap renderer (both the job-only variant and the variant that
also renders the static/category/location pages), the offset-pagination fetch
loop with duplicate suppression and its safety ceilings, and the top-level run
(configuration validation, empty-result guard, metadata construction).

External collaborators are made explicit parameters: the remote store is a
function from a requested offset to the page of documents (or a transport
error) it answers with, and the clock is a `now` string captured once per run.
The filesystem writes are represented by returning the produced artifacts.
-/

set_option maxHeartbeats 1000000
set_option maxRecDepth 100000

namespace JobsSitemap

/-- A job document returned by the remote store, with the fields used by
generate-sitemap.js: the opaque unique identifier (JS field `$id`), the
optional `slug`, and the optional `$updatedAt` / `$createdAt` timestamps.
An `Option String` field models a JS value that may be undefined or null;
the (falsy) empty string is `some ""`. -/
structure Doc where
  id : String
  slug : Option String
  updatedAt : Option String
  createdAt : Option String
  deriving DecidableEq, Repr

/-- JS truthiness of the `slug` field as used in `jobs.filter((job) => job.slug)`:
an undefined, null or empty-string slug is falsy. -/
def slugTruthy (j : Doc) : Bool :=
  match j.slug with
  | none => false
  | some s => s != ""

/-- JS `a || b` for an optional string `a`: an absent or empty (falsy) value
falls through to `b`. -/
def orFalsy (a : Option String) (b : String) : String :=
  match a with
  | none => b
  | some s => if s = "" then b else s

/-- CONFIG.BASE_URL of generate-sitemap.js. -/
def BASE_URL : String := "https://hiredup.me"

/-- The apostrophe character (code point 39). -/
def aposChar : Char := Char.ofNat 39

/-- One global single-character replacement pass over the characters of a
string, modelling a JS `String.replace` call with a global single-character
pattern. -/
def replaceAllChar (c : Char) (r : List Char) : List Char → List Char
  | [] => []
  | x :: xs => (if x = c then r else [x]) ++ replaceAllChar c r xs

/-- The five sequential replacement passes of escapeXML (generate-sitemap.js
lines 149-154), applied in source order: first ampersand, then the angle
brackets, the double quote, and finally the apostrophe. -/
def escapeData (l : List Char) : List Char :=
  replaceAllChar aposChar ("&apos;".data)
    (replaceAllChar '"' ("&quot;".data)
      (replaceAllChar '>' ("&gt;".data)
        (replaceAllChar '<' ("&lt;".data)
          (replaceAllChar '&' ("&amp;".data) l))))

/-- escapeXML from generate-sitemap.js: `if (!str) return ""` followed by the
five global replacements. The argument is an `Option String` so that an
undefined/null JS argument is representable. -/
def escapeXML (s : Option String) : String :=
  match s with
  | none => ""
  | some s => if s = "" then "" else String.mk (escapeData s.data)

/-- Specification-side description of escaping a single character: each of the
five XML metacharacters maps to its entity, and every other character is left
unchanged. -/
def escChar (c : Char) : List Char :=
  if c = '&' then "&amp;".data
  else if c = '<' then "&lt;".data
  else if c = '>' then "&gt;".data
  else if c = '"' then "&quot;".data
  else if c = aposChar then "&apos;".data
  else [c]

/-- Modelled from the spec: XML-unescaping does not appear in the source; the
spec's round-trip property maps the five entities `&amp;` `&lt;` `&gt;`
`&quot;` `&apos;` back to their characters, scanning left to right. -/
def unescapeData : List Char → List Char
  | '&' :: 'a' :: 'm' :: 'p' :: ';' :: rest => '&' :: unescapeData rest
  | '&' :: 'l' :: 't' :: ';' :: rest => '<' :: unescapeData rest
  | '&' :: 'g' :: 't' :: ';' :: rest => '>' :: unescapeData rest
  | '&' :: 'q' :: 'u' :: 'o' :: 't' :: ';' :: rest => '"' :: unescapeData rest
  | '&' :: 'a' :: 'p' :: 'o' :: 's' :: ';' :: rest => aposChar :: unescapeData rest
  | c :: rest => c :: unescapeData rest
  | [] => []

/-- Modelled from the spec: string-level XML unescaping. -/
def unescapeXML (s : String) : String := String.mk (unescapeData s.data)

/-- The `<loc>` value produced for a job with the given slug
(generate-sitemap.js line 133). -/
def locValue (slug : String) : String :=
  BASE_URL ++ "/jobs/" ++ escapeXML (some slug)

/-- One job `<url>` entry of generateSitemapXML (generate-sitemap.js lines
130-137): the lastmod is `$updatedAt || $createdAt || now`, and the slug is
XML-escaped inside the loc. -/
def jobEntry (now : String) (job : Doc) : String :=
  "  <url>\n    <loc>" ++ BASE_URL ++ "/jobs/" ++ escapeXML job.slug ++
    "</loc>\n    <lastmod>" ++ orFalsy job.updatedAt (orFalsy job.createdAt now) ++
    "</lastmod>\n    <changefreq>daily</changefreq>\n    <priority>0.8</priority>\n  </url>"

/-- generateSitemapXML from generate-sitemap.js (lines 123-145). The run's
clock value is passed explicitly as `now` (in JS it is `new Date()`): filter
the jobs to those with a truthy slug, render one entry per valid job, join
with newlines, and wrap in the urlset document. -/
def generateSitemapXML (jobs : List Doc) (now : String) : String :=
  let validJobs := jobs.filter slugTruthy
  let jobUrls := String.intercalate "\n" (validJobs.map (jobEntry now))
  "<?xml version=\"1.0\" encoding=\"UTF-8\"?>\n<urlset xmlns=\"http://www.sitemaps.org/schemas/sitemap/0.9\">\n"
    ++ jobUrls ++ "\n</urlset>"

/-- A static page entry of the SDK variant of the script. The JS priority is a
number interpolated into a template; it is embedded here as the decimal string
JS produces for it (for example 1.0 renders as "1" and 0.80 as "0.8"). -/
structure StaticPage where
  url : String
  changeFrequency : String
  priority : String
  deriving DecidableEq, Repr

/-- urlEntry of the SDK variant: a single `<url>` element; the loc is
XML-escaped, the other three fields are interpolated as given. -/
def urlEntry (loc lastmod changefreq priority : String) : String :=
  "  <url>\n    <loc>" ++ escapeXML (some loc) ++ "</loc>\n    <lastmod>" ++ lastmod ++
    "</lastmod>\n    <changefreq>" ++ changefreq ++ "</changefreq>\n    <priority>" ++
    priority ++ "</priority>\n  </url>"

/-- STATIC_PAGES of the SDK variant. -/
def STATIC_PAGES : List StaticPage :=
  [⟨"", "daily", "1"⟩,
   ⟨"/jobs", "hourly", "0.9"⟩,
   ⟨"/jobs/categories", "weekly", "0.85"⟩,
   ⟨"/companies", "daily", "0.8"⟩,
   ⟨"/job-seekers", "weekly", "0.8"⟩,
   ⟨"/employers", "weekly", "0.8"⟩,
   ⟨"/talent-search", "daily", "0.7"⟩,
   ⟨"/post-job", "monthly", "0.7"⟩,
   ⟨"/pricing", "monthly", "0.6"⟩,
   ⟨"/salary-estimator", "monthly", "0.7"⟩,
   ⟨"/blog", "weekly", "0.7"⟩,
   ⟨"/resources", "weekly", "0.6"⟩,
   ⟨"/success-stories", "weekly", "0.6"⟩,
   ⟨"/contact", "monthly", "0.5"⟩,
   ⟨"/privacy", "yearly", "0.3"⟩,
   ⟨"/terms", "yearly", "0.3"⟩,
   ⟨"/cookies", "yearly", "0.3"⟩]

/-- CATEGORY_SLUGS of the SDK variant. -/
def CATEGORY_SLUGS : List String :=
  ["software-developer-jobs", "it-jobs", "accounting-finance-jobs", "marketing-jobs",
   "hr-jobs", "sales-jobs", "design-jobs", "customer-service-jobs", "engineering-jobs",
   "data-analyst-jobs", "remote-jobs", "fresher-jobs"]

/-- CATEGORY_PAGES of the SDK variant. -/
def CATEGORY_PAGES : List StaticPage :=
  CATEGORY_SLUGS.map fun slug => ⟨"/jobs/category/" ++ slug, "daily", "0.85"⟩

/-- LOCATION_SLUGS of the SDK variant. -/
def LOCATION_SLUGS : List String :=
  ["dhaka", "chittagong", "sylhet", "rajshahi", "remote-bangladesh"]

/-- LOCATION_PAGES of the SDK variant. -/
def LOCATION_PAGES : List StaticPage :=
  LOCATION_SLUGS.map fun slug => ⟨"/jobs/location/" ++ slug, "daily", "0.8"⟩

/-- ALL_STATIC_PAGES of the SDK variant. -/
def ALL_STATIC_PAGES : List StaticPage := STATIC_PAGES ++ CATEGORY_PAGES ++ LOCATION_PAGES

/-- generateSitemapXML of the SDK variant (static pages plus jobs): the `now`
timestamp is captured once per run and shared by every static entry; each
valid job entry uses `$updatedAt || $createdAt || now`. A valid job's slug is
interpolated into the loc (it is a non-empty string after the filter) and the
whole loc is escaped inside urlEntry. -/
def generateSitemapXMLFull (jobs : List Doc) (staticPages : List StaticPage) (now : String) : String :=
  let validJobs := jobs.filter slugTruthy
  let staticEntries := staticPages.map fun page =>
    urlEntry (BASE_URL ++ page.url) now page.changeFrequency page.priority
  let jobEntries := validJobs.map fun job =>
    urlEntry (BASE_URL ++ "/jobs/" ++ job.slug.getD "")
      (orFalsy job.updatedAt (orFalsy job.createdAt now)) "daily" "0.8"
  let allUrls := String.intercalate "\n" (staticEntries ++ jobEntries)
  "<?xml version=\"1.0\" encoding=\"UTF-8\"?>\n<urlset xmlns=\"http://www.sitemaps.org/schemas/sitemap/0.9\">\n"
    ++ allUrls ++ "\n</urlset>"

/-- The mutable state of the fetchAllJobs while-loop: the accumulated unique
jobs, the set of seen ids (as a list with membership), the current offset, and
the count of consecutive batches that contributed zero new documents. -/
structure FetchState where
  allJobs : List Doc
  seenIds : List String
  offset : Nat
  consecutiveEmptyOrDuplicate : Nat
  deriving DecidableEq, Repr

/-- A simulated remote store for offset pagination: the page of documents (or
a transport error) it answers for a requested offset. The request limit is
fixed at 100 in the source; the store decides how many documents to return. -/
def Store : Type := Nat → Except String (List Doc)

/-- The result of processing one batch with the dedup loop. -/
structure BatchResult where
  allJobs : List Doc
  seenIds : List String
  newDocsInBatch : Nat
  deriving DecidableEq, Repr

/-- The per-batch dedup loop of fetchAllJobs (generate-sitemap.js lines
60-68): walk the batch in order, append each document whose `$id` has not
been seen, record its id, and count the new documents. -/
def addDocs (seen : List String) (acc : List Doc) (n : Nat) : List Doc → BatchResult
  | [] => ⟨acc, seen, n⟩
  | d :: ds =>
    if d.id ∈ seen then addDocs seen acc n ds
    else addDocs (d.id :: seen) (acc ++ [d]) (n + 1) ds

/-- Outcome of one iteration of the fetch loop: continue with a new state,
terminate normally with the accumulated jobs, or abort with an error. -/
inductive StepRes where
  | next (s : FetchState)
  | done (jobs : List Doc)
  | fail (e : String)
  deriving DecidableEq, Repr

/-- One iteration of the while(true) loop of fetchAllJobs (generate-sitemap.js
lines 26-117): request the page at the current offset (a non-ok response
aborts the whole fetch); an empty page terminates; otherwise dedup the batch,
update the zero-new-documents streak and terminate once it reaches 3; advance
the offset by the number of documents returned; terminate once the
accumulated count reaches 100000 or the advanced offset exceeds 200000. -/
def fetchStep (store : Store) (s : FetchState) : StepRes :=
  match store s.offset with
  | .error e => .fail e
  | .ok docs =>
    if docs.length = 0 then .done s.allJobs
    else
      let r := addDocs s.seenIds s.allJobs 0 docs
      let consec := if r.newDocsInBatch = 0 then s.consecutiveEmptyOrDuplicate + 1 else 0
      if 3 ≤ consec then .done r.allJobs
      else if 100000 ≤ r.allJobs.length then .done r.allJobs
      else if 200000 < s.offset + docs.length then .done r.allJobs
      else .next ⟨r.allJobs, r.seenIds, s.offset + docs.length, consec⟩

/-- The fetch loop, iterated with explicit fuel. It returns the list of
offsets requested (the network requests issued, in order) together with the
outcome: `none` when the fuel ran out before the loop finished, `some (ok
jobs)` for normal termination, and `some (error e)` when a request failed. -/
def fetchLoop (store : Store) : Nat → FetchState → List Nat × Option (Except String (List Doc))
  | 0, _ => ([], none)
  | fuel + 1, s =>
    match fetchStep store s with
    | .done jobs => ([s.offset], some (Except.ok jobs))
    | .fail e => ([s.offset], some (Except.error e))
    | .next s2 =>
      let r := fetchLoop store fuel s2
      (s.offset :: r.1, r.2)

/-- The initial state of fetchAllJobs: no jobs, no seen ids, offset 0,
streak 0. -/
def initState : FetchState := ⟨[], [], 0, 0⟩

/-- fetchAllJobs: run the fetch loop from the initial state. -/
def fetchAllJobs (store : Store) (fuel : Nat) : List Nat × Option (Except String (List Doc)) :=
  fetchLoop store fuel initState

/-- The required configuration of generate-sitemap.js. Each field models one
required environment variable; an `Option String` captures an unset variable,
and the empty string is a set-but-empty (falsy) value. -/
structure Config where
  APPWRITE_PROJECT_ID : Option String
  APPWRITE_API_KEY : Option String
  DATABASE_ID : Option String
  COLLECTION_ID : Option String
  deriving DecidableEq, Repr

/-- The `required` list of main (generate-sitemap.js lines 163-168). -/
def requiredKeys : List String :=
  ["APPWRITE_PROJECT_ID", "APPWRITE_API_KEY", "DATABASE_ID", "COLLECTION_ID"]

/-- CONFIG[key] lookup. -/
def configGet (c : Config) : String → Option String := fun k =>
  if k = "APPWRITE_PROJECT_ID" then c.APPWRITE_PROJECT_ID
  else if k = "APPWRITE_API_KEY" then c.APPWRITE_API_KEY
  else if k = "DATABASE_ID" then c.DATABASE_ID
  else if k = "COLLECTION_ID" then c.COLLECTION_ID
  else none

/-- JS falsiness of an environment value (`!CONFIG[key]`): absent or empty. -/
def isFalsy (v : Option String) : Bool :=
  match v with
  | none => true
  | some s => s == ""

/-- The `missing` list of main: the required keys whose value is falsy. -/
def missingRequired (c : Config) : List String :=
  requiredKeys.filter fun k => isFalsy (configGet c k)

/-- The number of UTF-16 code units a character occupies in a JS string. -/
def charJsLen (c : Char) : Nat := if c.toNat < 65536 then 1 else 2

/-- The number of bytes a character occupies in the UTF-8 encoding. -/
def charUtf8Len (c : Char) : Nat :=
  if c.toNat < 128 then 1
  else if c.toNat < 2048 then 2
  else if c.toNat < 65536 then 3
  else 4

/-- JS `String.prototype.length`: the number of UTF-16 code units. -/
def jsLength (s : String) : Nat := (s.data.map charJsLen).sum

/-- The UTF-8 encoded byte length of a string (the size of the file the
script writes with encoding utf8). -/
def utf8Length (s : String) : Nat := (s.data.map charUtf8Len).sum

/-- The metadata object written by main (generate-sitemap.js lines 198-203):
generation timestamp, total fetched jobs, jobs with a truthy slug, and
`sitemap.length` (a JS string length, i.e. UTF-16 code units). -/
structure Metadata where
  generatedAt : String
  totalJobs : Nat
  validJobs : Nat
  sitemapSize : Nat
  deriving DecidableEq, Repr

/-- The artifacts a successful run produces: the sitemap document and the
metadata summary. -/
structure MainOut where
  sitemap : String
  metadata : Metadata
  deriving DecidableEq, Repr

/-- The artifacts main builds from the fetched jobs (generate-sitemap.js
lines 185-203): the rendered sitemap and the metadata derived from it. -/
def buildOutput (jobs : List Doc) (now : String) : MainOut :=
  let sitemap := generateSitemapXML jobs now
  ⟨sitemap, ⟨now, jobs.length, (jobs.filter slugTruthy).length, jsLength sitemap⟩⟩

/-- The post-fetch part of main (generate-sitemap.js lines 180-203): the
empty-result guard followed by rendering and metadata construction. -/
def finishRun (jobs : List Doc) (now : String) : Except String MainOut :=
  if jobs.length = 0 then Except.error "No jobs fetched from Appwrite!"
  else Except.ok (buildOutput jobs now)

/-- main of generate-sitemap.js: validate the required configuration before
anything else (a missing variable raises without any request being issued),
then fetch, apply the empty-result guard, and build the artifacts. The first
component of the result is the list of network requests issued (the offsets
the store was asked for); the second is `none` when the fuel ran out inside
the fetch loop, and otherwise the fatal error or the produced artifacts. -/
def main (cfg : Config) (store : Store) (fuel : Nat) (now : String) :
    List Nat × Option (Except String MainOut) :=
  if missingRequired cfg ≠ [] then
    ([], some (Except.error
      ("Missing required environment variables: " ++
        String.intercalate ", " (missingRequired cfg))))
  else
    match fetchLoop store fuel initState with
    | (reqs, none) => (reqs, none)
    | (reqs, some (Except.error e)) => (reqs, some (Except.error e))
    | (reqs, some (Except.ok jobs)) => (reqs, some (finishRun jobs now))

/-- A record has a non-empty slug: the spec-side validity predicate. -/
def hasNonEmptySlug (j : Doc) : Prop := ∃ s, j.slug = some s ∧ s ≠ ""

instance (j : Doc) : Decidable (hasNonEmptySlug j) :=
  match h : j.slug with
  | some s =>
    if hs : s = "" then
      .isFalse (by simp [hasNonEmptySlug, h, hs])
    else
      .isTrue ⟨s, h, hs⟩
  | none => .isFalse (by simp [hasNonEmptySlug, h])

/-! ### Lemmas about XML escaping -/

theorem string_mk_data (s : String) : String.mk s.data = s := by
  cases s
  rfl

theorem replaceAllChar_append (c : Char) (r : List Char) (a b : List Char) :
    replaceAllChar c r (a ++ b) = replaceAllChar c r a ++ replaceAllChar c r b := by
  induction a with
  | nil => rfl
  | cons x xs ih => simp [replaceAllChar, ih, List.append_assoc]

theorem escapeData_append (a b : List Char) :
    escapeData (a ++ b) = escapeData a ++ escapeData b := by
  simp [escapeData, replaceAllChar_append]

theorem escapeData_singleton (c : Char) : escapeData [c] = escChar c := by
  by_cases h1 : c = '&'
  · subst h1; rfl
  by_cases h2 : c = '<'
  · subst h2; rfl
  by_cases h3 : c = '>'
  · subst h3; rfl
  by_cases h4 : c = '"'
  · subst h4; rfl
  by_cases h5 : c = aposChar
  · subst h5; rfl
  simp [escapeData, replaceAllChar, escChar, h1, h2, h3, h4, h5]

theorem escapeData_eq_join (l : List Char) : escapeData l = (l.map escChar).flatten := by
  induction l with
  | nil => rfl
  | cons x xs ih =>
    have h1 : escapeData (x :: xs) = escapeData [x] ++ escapeData xs := by
      rw [show x :: xs = [x] ++ xs from rfl, escapeData_append]
    rw [h1, escapeData_singleton, ih]
    rfl

theorem unescapeData_amp (l : List Char) :
    unescapeData ('&' :: 'a' :: 'm' :: 'p' :: ';' :: l) = '&' :: unescapeData l := rfl

theorem unescapeData_lt (l : List Char) :
    unescapeData ('&' :: 'l' :: 't' :: ';' :: l) = '<' :: unescapeData l := rfl

theorem unescapeData_gt (l : List Char) :
    unescapeData ('&' :: 'g' :: 't' :: ';' :: l) = '>' :: unescapeData l := rfl

theorem unescapeData_quot (l : List Char) :
    unescapeData ('&' :: 'q' :: 'u' :: 'o' :: 't' :: ';' :: l) = '"' :: unescapeData l := rfl

theorem unescapeData_apos (l : List Char) :
    unescapeData ('&' :: 'a' :: 'p' :: 'o' :: 's' :: ';' :: l) = aposChar :: unescapeData l := rfl

theorem unescapeData_cons_of_ne {c : Char} (h : c ≠ '&') (l : List Char) :
    unescapeData (c :: l) = c :: unescapeData l := by
  rw [unescapeData.eq_def]
  split
  all_goals simp_all

theorem unescape_escChar_append (c : Char) (l : List Char) :
    unescapeData (escChar c ++ l) = c :: unescapeData l := by
  by_cases h1 : c = '&'
  · subst h1; exact unescapeData_amp l
  by_cases h2 : c = '<'
  · subst h2; exact unescapeData_lt l
  by_cases h3 : c = '>'
  · subst h3; exact unescapeData_gt l
  by_cases h4 : c = '"'
  · subst h4; exact unescapeData_quot l
  by_cases h5 : c = aposChar
  · subst h5; exact unescapeData_apos l
  have he : escChar c = [c] := by simp [escChar, h1, h2, h3, h4, h5]
  rw [he]
  exact unescapeData_cons_of_ne h1 l

theorem unescape_escapeData (l : List Char) : unescapeData (escapeData l) = l := by
  rw [escapeData_eq_join]
  induction l with
  | nil => rfl
  | cons x xs ih =>
    show unescapeData (escChar x ++ (xs.map escChar).flatten) = x :: xs
    rw [unescape_escChar_append, ih]

theorem unescapeData_append_of_no_amp (a b : List Char) (h : '&' ∉ a) :
    unescapeData (a ++ b) = a ++ unescapeData b := by
  induction a with
  | nil => rfl
  | cons x xs ih =>
    have hx : x ≠ '&' := fun hx => h (hx ▸ List.mem_cons_self x xs)
    have hxs : '&' ∉ xs := fun hm => h (List.mem_cons_of_mem x hm)
    simp [List.cons_append, unescapeData_cons_of_ne hx, ih hxs]

/-! ### Claims C4 and C5 -/

/-- C4: escapeXML replaces exactly the five XML metacharacters by their
entities and leaves every other character unchanged (its output is the
concatenation of the per-character spec-side map `escChar`), and an absent or
empty input escapes to the empty string, never to the literal text
"undefined" or "null". -/
theorem C4_escapeXML_five_metacharacters :
    (∀ s : String, escapeXML (some s) = String.mk ((s.data.map escChar).flatten)) ∧
    escapeXML none = "" ∧ escapeXML (some "") = "" ∧
    escapeXML none ≠ "undefined" ∧ escapeXML none ≠ "null" := by
  refine ⟨fun s => ?_, rfl, rfl, by decide, by decide⟩
  by_cases hs : s = ""
  · subst hs; rfl
  · simp only [escapeXML, hs, if_false, escapeData_eq_join]

/-- C5: XML-unescaping recovers the original string after escapeXML, for every
string; in particular the `<loc>` value rendered for a slug unescapes back to
the base URL path with the original slug characters. -/
theorem C5_unescape_escape_roundtrip (s : String) :
    unescapeXML (escapeXML (some s)) = s ∧
    unescapeXML (locValue s) = BASE_URL ++ "/jobs/" ++ s := by
  constructor
  · by_cases hs : s = ""
    · subst hs; rfl
    · simp only [escapeXML, hs, if_false, unescapeXML]
      rw [unescape_escapeData]
  · have hdata : (locValue s).data = ("https://hiredup.me/jobs/").data ++ (escapeXML (some s)).data := by
      simp [locValue, BASE_URL]
    have hnoamp : '&' ∉ ("https://hiredup.me/jobs/").data := by decide
    have haux : ("https://hiredup.me/jobs/").data = ("https://hiredup.me").data ++ ("/jobs/").data := by
      decide
    by_cases hs : s = ""
    · subst hs; rfl
    · apply String.ext
      show unescapeData (locValue s).data = (BASE_URL ++ "/jobs/" ++ s).data
      rw [hdata, unescapeData_append_of_no_amp _ _ hnoamp]
      simp only [escapeXML, hs, if_false]
      rw [unescape_escapeData]
      simp [BASE_URL, String.data_append, List.append_assoc, haux]

/-! ### Lemmas about the renderer, the configuration guard and the metadata -/

theorem slugTruthy_false_of_invalid {bad : Doc} (h : bad.slug = none ∨ bad.slug = some "") :
    slugTruthy bad = false := by
  rcases h with h | h <;> simp [slugTruthy, h]

theorem slugTruthy_eq_decide (j : Doc) : slugTruthy j = decide (hasNonEmptySlug j) := by
  cases hj : j.slug with
  | none => simp [slugTruthy, hasNonEmptySlug, hj]
  | some s =>
    by_cases hs : s = "" <;> simp [slugTruthy, hasNonEmptySlug, hj, hs]

theorem jsLen_eq_utf8Len_of_ascii (l : List Char) (h : ∀ c ∈ l, c.toNat < 128) :
    (l.map charJsLen).sum = (l.map charUtf8Len).sum := by
  induction l with
  | nil => rfl
  | cons c t ih =>
    have hc := h c (List.mem_cons_self c t)
    have ht : ∀ x ∈ t, x.toNat < 128 := fun x hx => h x (List.mem_cons_of_mem c hx)
    have h1 : charJsLen c = 1 := by rw [charJsLen, if_pos (by omega)]
    have h2 : charUtf8Len c = 1 := by rw [charUtf8Len, if_pos hc]
    simp only [List.map_cons, List.sum_cons, ih ht, h1, h2]

/-! ### Claims C3, C6, C8, C9, C10 -/

/-- C3: a record with an absent or empty slug produces no URL entry in the
rendered document — deleting it from the input leaves the rendered sitemap
unchanged — and the valid-job count in the metadata equals exactly the number
of input records with a non-empty slug. -/
theorem C3_invalid_slug_no_entry_and_valid_count (jobs1 jobs2 : List Doc) (bad : Doc) (now : String)
    (h : bad.slug = none ∨ bad.slug = some "") :
    generateSitemapXML (jobs1 ++ bad :: jobs2) now = generateSitemapXML (jobs1 ++ jobs2) now ∧
    (buildOutput (jobs1 ++ bad :: jobs2) now).metadata.validJobs =
      (jobs1 ++ bad :: jobs2).countP fun j => decide (hasNonEmptySlug j) := by
  have hb : slugTruthy bad = false := slugTruthy_false_of_invalid h
  constructor
  · simp [generateSitemapXML, List.filter_append, List.filter_cons, hb]
  · show ((jobs1 ++ bad :: jobs2).filter slugTruthy).length = _
    rw [List.countP_eq_length_filter]
    have hfun : slugTruthy = fun j => decide (hasNonEmptySlug j) := funext slugTruthy_eq_decide
    rw [hfun]

/-- C3 witness: with one valid record and one slug-less record, the rendered
document equals the one without the invalid record and the valid count is 1. -/
theorem C3_invalid_slug_no_entry_and_valid_count_witness :
    generateSitemapXML ([(⟨"a", some "x", none, none⟩ : Doc)] ++ (⟨"b", none, none, none⟩ : Doc) :: []) "T"
        = generateSitemapXML ([⟨"a", some "x", none, none⟩] ++ []) "T" ∧
    (buildOutput ([(⟨"a", some "x", none, none⟩ : Doc)] ++ (⟨"b", none, none, none⟩ : Doc) :: []) "T").metadata.validJobs
        = ([(⟨"a", some "x", none, none⟩ : Doc)] ++ (⟨"b", none, none, none⟩ : Doc) :: []).countP
            fun j => decide (hasNonEmptySlug j) :=
  C3_invalid_slug_no_entry_and_valid_count [⟨"a", some "x", none, none⟩] []
    ⟨"b", none, none, none⟩ "T" (Or.inl rfl)

/-- C6: rendering is deterministic and idempotent: two renders on equal
static-entry lists, equal job lists and an equal fixed now timestamp produce
identical output strings (hence byte-identical UTF-8 files, a string
determining its encoding). -/
theorem C6_render_deterministic (sp1 sp2 : List StaticPage) (j1 j2 : List Doc) (n1 n2 : String)
    (hs : sp1 = sp2) (hj : j1 = j2) (hn : n1 = n2) :
    generateSitemapXMLFull j1 sp1 n1 = generateSitemapXMLFull j2 sp2 n2 ∧
    (generateSitemapXMLFull j1 sp1 n1).data = (generateSitemapXMLFull j2 sp2 n2).data := by
  subst hs; subst hj; subst hn
  exact ⟨rfl, rfl⟩

/-- C6 witness: two renders of the full static-page list plus one job, at the
same fixed timestamp, coincide. -/
theorem C6_render_deterministic_witness :
    generateSitemapXMLFull [⟨"a", some "engineer-x", some "2024-01-01T00:00:00.000Z", none⟩]
        ALL_STATIC_PAGES "2024-02-02T00:00:00.000Z"
      = generateSitemapXMLFull [⟨"a", some "engineer-x", some "2024-01-01T00:00:00.000Z", none⟩]
        ALL_STATIC_PAGES "2024-02-02T00:00:00.000Z" ∧
    (generateSitemapXMLFull [⟨"a", some "engineer-x", some "2024-01-01T00:00:00.000Z", none⟩]
        ALL_STATIC_PAGES "2024-02-02T00:00:00.000Z").data
      = (generateSitemapXMLFull [⟨"a", some "engineer-x", some "2024-01-01T00:00:00.000Z", none⟩]
        ALL_STATIC_PAGES "2024-02-02T00:00:00.000Z").data :=
  C6_render_deterministic ALL_STATIC_PAGES ALL_STATIC_PAGES
    [⟨"a", some "engineer-x", some "2024-01-01T00:00:00.000Z", none⟩]
    [⟨"a", some "engineer-x", some "2024-01-01T00:00:00.000Z", none⟩]
    "2024-02-02T00:00:00.000Z" "2024-02-02T00:00:00.000Z" rfl rfl rfl

/-- C8: when a required configuration value is absent the run fails with the
configuration error and issues no network request (the request log is empty),
and the outcome does not depend on the store at all. -/
theorem C8_missing_config_fails_before_request (cfg : Config) (store : Store) (fuel : Nat)
    (now : String) (h : missingRequired cfg ≠ []) :
    main cfg store fuel now =
      ([], some (Except.error ("Missing required environment variables: " ++
        String.intercalate ", " (missingRequired cfg)))) ∧
    ∀ store2 : Store, main cfg store fuel now = main cfg store2 fuel now := by
  refine ⟨by simp [main, h], fun store2 => by simp [main, h]⟩

/-- C8 witness: with COLLECTION_ID unset the run fails with the configuration
error, no request is issued, and the store is irrelevant. -/
theorem C8_missing_config_fails_before_request_witness :
    main ⟨some "p", some "k", some "db", none⟩ (fun _ => Except.ok []) 5 "T" =
      ([], some (Except.error ("Missing required environment variables: " ++
        String.intercalate ", " (missingRequired ⟨some "p", some "k", some "db", none⟩)))) ∧
    ∀ store2 : Store, main ⟨some "p", some "k", some "db", none⟩ (fun _ => Except.ok []) 5 "T"
        = main ⟨some "p", some "k", some "db", none⟩ store2 5 "T" :=
  C8_missing_config_fails_before_request ⟨some "p", some "k", some "db", none⟩
    (fun _ => Except.ok []) 5 "T" (by decide)

/-- C9 counterexample: for a fetched record whose slug contains a non-ASCII
character, the size field written into the metadata (JS string length, i.e.
UTF-16 code units) differs from the UTF-8 byte size of the document that is
written to disk — the claim as stated fails on this input. -/
theorem C9_size_counterexample :
    (buildOutput [⟨"a", some "café", none, none⟩] "2024-01-01T00:00:00.000Z").metadata.sitemapSize ≠
      utf8Length (buildOutput [⟨"a", some "café", none, none⟩] "2024-01-01T00:00:00.000Z").sitemap := by
  decide

/-- C9 amended: the size field equals the JS string length of the document
(the number of UTF-16 code units); whenever every character of the produced
document is ASCII, this equals the UTF-8 byte size of the written file. -/
theorem C9_size_is_js_length (jobs : List Doc) (now : String)
    (h : ∀ c ∈ (buildOutput jobs now).sitemap.data, c.toNat < 128) :
    (buildOutput jobs now).metadata.sitemapSize = utf8Length (buildOutput jobs now).sitemap :=
  jsLen_eq_utf8Len_of_ascii ((buildOutput jobs now).sitemap.data) h

/-- C9 witness: an all-ASCII run where the metadata size field equals the
UTF-8 byte size. -/
theorem C9_size_is_js_length_witness :
    (∀ c ∈ (buildOutput [⟨"a", some "engineer-x", none, none⟩]
        "2024-01-01T00:00:00.000Z").sitemap.data, c.toNat < 128) ∧
    (buildOutput [⟨"a", some "engineer-x", none, none⟩]
        "2024-01-01T00:00:00.000Z").metadata.sitemapSize =
      utf8Length (buildOutput [⟨"a", some "engineer-x", none, none⟩]
        "2024-01-01T00:00:00.000Z").sitemap :=
  ⟨by decide, C9_size_is_js_length [⟨"a", some "engineer-x", none, none⟩]
    "2024-01-01T00:00:00.000Z" (by decide)⟩

/-- C10: the empty-result guard tests only the total number of fetched
records: a non-empty job list in which every record lacks a slug passes the
guard, the run succeeds, the produced document contains zero job url entries
(it is exactly the empty urlset document), and the metadata valid-job count
is 0. -/
theorem C10_all_invalid_records_succeed (jobs : List Doc) (now : String)
    (hne : jobs ≠ []) (hall : ∀ j ∈ jobs, j.slug = none ∨ j.slug = some "") :
    finishRun jobs now = Except.ok (buildOutput jobs now) ∧
    (buildOutput jobs now).metadata.validJobs = 0 ∧
    (buildOutput jobs now).sitemap =
      "<?xml version=\"1.0\" encoding=\"UTF-8\"?>\n<urlset xmlns=\"http://www.sitemaps.org/schemas/sitemap/0.9\">\n\n</urlset>" := by
  have hfil : jobs.filter slugTruthy = [] := by
    rw [List.filter_eq_nil_iff]
    intro j hj
    have := slugTruthy_false_of_invalid (hall j hj)
    simp [this]
  refine ⟨?_, ?_, ?_⟩
  · simp [finishRun, List.length_eq_zero, hne]
  · show (jobs.filter slugTruthy).length = 0
    rw [hfil]
    rfl
  · show generateSitemapXML jobs now = _
    have h2 : generateSitemapXML jobs now = generateSitemapXML [] now := by
      simp [generateSitemapXML, hfil]
    rw [h2]
    rfl

/-- C10 witness: two fetched records, one with no slug and one with an empty
slug, pass the guard and produce the empty urlset document. -/
theorem C10_all_invalid_records_succeed_witness :
    finishRun [⟨"a", none, none, none⟩, ⟨"b", some "", none, none⟩] "T" =
      Except.ok (buildOutput [⟨"a", none, none, none⟩, ⟨"b", some "", none, none⟩] "T") ∧
    (buildOutput [⟨"a", none, none, none⟩, ⟨"b", some "", none, none⟩] "T").metadata.validJobs = 0 ∧
    (buildOutput [⟨"a", none, none, none⟩, ⟨"b", some "", none, none⟩] "T").sitemap =
      "<?xml version=\"1.0\" encoding=\"UTF-8\"?>\n<urlset xmlns=\"http://www.sitemaps.org/schemas/sitemap/0.9\">\n\n</urlset>" :=
  C10_all_invalid_records_succeed [⟨"a", none, none, none⟩, ⟨"b", some "", none, none⟩] "T"
    (by decide) (by decide)

/-! ### Lemmas about the fetch loop -/

theorem addDocs_seen_mono (docs : List Doc) :
    ∀ seen acc n x, x ∈ seen → x ∈ (addDocs seen acc n docs).seenIds := by
  induction docs with
  | nil => intro seen acc n x hx; simpa [addDocs] using hx
  | cons d ds ih =>
    intro seen acc n x hx
    by_cases h : d.id ∈ seen
    · simp only [addDocs, if_pos h]
      exact ih _ _ _ _ hx
    · simp only [addDocs, if_neg h]
      exact ih _ _ _ _ (List.mem_cons_of_mem _ hx)

theorem addDocs_mem_seen (docs : List Doc) :
    ∀ seen acc n d, d ∈ docs → d.id ∈ (addDocs seen acc n docs).seenIds := by
  induction docs with
  | nil => intro _ _ _ _ h; cases h
  | cons d0 ds ih =>
    intro seen acc n d hd
    rcases List.mem_cons.mp hd with rfl | hd2
    · by_cases h : d.id ∈ seen
      · simp only [addDocs, if_pos h]
        exact addDocs_seen_mono ds _ _ _ _ h
      · simp only [addDocs, if_neg h]
        exact addDocs_seen_mono ds _ _ _ _ (List.mem_cons_self _ _)
    · by_cases h : d0.id ∈ seen
      · simp only [addDocs, if_pos h]
        exact ih _ _ _ _ hd2
      · simp only [addDocs, if_neg h]
        exact ih _ _ _ _ hd2

theorem addDocs_of_forall_mem (docs : List Doc) :
    ∀ seen acc n, (∀ d ∈ docs, d.id ∈ seen) → addDocs seen acc n docs = ⟨acc, seen, n⟩ := by
  induction docs with
  | nil => intro seen acc n _; rfl
  | cons d ds ih =>
    intro seen acc n h
    have hd : d.id ∈ seen := h d (List.mem_cons_self _ _)
    simp only [addDocs, if_pos hd]
    exact ih _ _ _ (fun x hx => h x (List.mem_cons_of_mem _ hx))

theorem addDocs_newCount_le (docs : List Doc) :
    ∀ seen acc n, n ≤ (addDocs seen acc n docs).newDocsInBatch := by
  induction docs with
  | nil => intro seen acc n; simp [addDocs]
  | cons d ds ih =>
    intro seen acc n
    by_cases h : d.id ∈ seen
    · simp only [addDocs, if_pos h]
      exact ih _ _ _
    · simp only [addDocs, if_neg h]
      exact Nat.le_trans (Nat.le_succ n) (ih _ _ _)

theorem addDocs_newCount_pos (docs : List Doc) :
    ∀ seen acc n, (∃ d ∈ docs, d.id ∉ seen) → n < (addDocs seen acc n docs).newDocsInBatch := by
  induction docs with
  | nil =>
    intro seen acc n h
    obtain ⟨d, hd, _⟩ := h
    cases hd
  | cons d0 ds ih =>
    intro seen acc n h
    obtain ⟨d, hd, hns⟩ := h
    by_cases h0 : d0.id ∈ seen
    · simp only [addDocs, if_pos h0]
      apply ih
      rcases List.mem_cons.mp hd with rfl | hd2
      · exact absurd h0 hns
      · exact ⟨d, hd2, hns⟩
    · simp only [addDocs, if_neg h0]
      exact Nat.lt_of_lt_of_le (Nat.lt_succ_self n) (addDocs_newCount_le ds _ _ _)

theorem addDocs_nodup (docs : List Doc) :
    ∀ seen acc n, (acc.map Doc.id).Nodup → (∀ d ∈ acc, d.id ∈ seen) →
      ((addDocs seen acc n docs).allJobs.map Doc.id).Nodup ∧
        ∀ d ∈ (addDocs seen acc n docs).allJobs, d.id ∈ (addDocs seen acc n docs).seenIds := by
  induction docs with
  | nil =>
    intro seen acc n h1 h2
    exact ⟨h1, h2⟩
  | cons d ds ih =>
    intro seen acc n h1 h2
    by_cases h : d.id ∈ seen
    · simp only [addDocs, if_pos h]
      exact ih _ _ _ h1 h2
    · simp only [addDocs, if_neg h]
      apply ih
      · have hd : d.id ∉ acc.map Doc.id := by
          intro hmem
          rcases List.mem_map.mp hmem with ⟨a, ha, haid⟩
          exact h (haid ▸ h2 a ha)
        simp [List.nodup_append, h1, hd]
      · intro x hx
        rcases List.mem_append.mp hx with hxa | hxd
        · exact List.mem_cons_of_mem _ (h2 x hxa)
        · have hxe := List.mem_singleton.mp hxd
          subst hxe
          exact List.mem_cons_self _ _

theorem fetchStep_errorCase (store : Store) (s : FetchState) (e : String)
    (hst : store s.offset = Except.error e) : fetchStep store s = StepRes.fail e := by
  simp [fetchStep, hst]

theorem fetchStep_ok (store : Store) (s : FetchState) (docs : List Doc)
    (hst : store s.offset = Except.ok docs) :
    fetchStep store s =
      if docs.length = 0 then StepRes.done s.allJobs
      else if 3 ≤ (if (addDocs s.seenIds s.allJobs 0 docs).newDocsInBatch = 0 then
          s.consecutiveEmptyOrDuplicate + 1 else 0) then
        StepRes.done (addDocs s.seenIds s.allJobs 0 docs).allJobs
      else if 100000 ≤ (addDocs s.seenIds s.allJobs 0 docs).allJobs.length then
        StepRes.done (addDocs s.seenIds s.allJobs 0 docs).allJobs
      else if 200000 < s.offset + docs.length then
        StepRes.done (addDocs s.seenIds s.allJobs 0 docs).allJobs
      else
        StepRes.next ⟨(addDocs s.seenIds s.allJobs 0 docs).allJobs,
          (addDocs s.seenIds s.allJobs 0 docs).seenIds, s.offset + docs.length,
          if (addDocs s.seenIds s.allJobs 0 docs).newDocsInBatch = 0 then
            s.consecutiveEmptyOrDuplicate + 1 else 0⟩ := by
  simp only [fetchStep, hst]

theorem fetchStep_invariant (store : Store) (s : FetchState)
    (h1 : (s.allJobs.map Doc.id).Nodup) (h2 : ∀ d ∈ s.allJobs, d.id ∈ s.seenIds) :
    (∀ jobs, fetchStep store s = StepRes.done jobs → (jobs.map Doc.id).Nodup) ∧
    (∀ s2, fetchStep store s = StepRes.next s2 →
      (s2.allJobs.map Doc.id).Nodup ∧ ∀ d ∈ s2.allJobs, d.id ∈ s2.seenIds) := by
  cases hst : store s.offset with
  | error e =>
    rw [fetchStep_errorCase store s e hst]
    refine ⟨fun jobs hj => ?_, fun s2 hs2 => ?_⟩
    · cases hj
    · cases hs2
  | ok docs =>
    rw [fetchStep_ok store s docs hst]
    obtain ⟨hn1, hn2⟩ := addDocs_nodup docs s.seenIds s.allJobs 0 h1 h2
    by_cases hlen : docs.length = 0
    · rw [if_pos hlen]
      constructor
      · intro jobs hj
        cases hj
        exact h1
      · intro s2 hs2
        cases hs2
    · rw [if_neg hlen]
      constructor
      · intro jobs hj
        split_ifs at hj <;> cases hj <;> exact hn1
      · intro s2 hs2
        split_ifs at hs2 <;> cases hs2 <;> exact ⟨hn1, hn2⟩

theorem fetchLoop_nodup (store : Store) :
    ∀ (fuel : Nat) (s : FetchState), (s.allJobs.map Doc.id).Nodup →
      (∀ d ∈ s.allJobs, d.id ∈ s.seenIds) →
      ∀ jobs, (fetchLoop store fuel s).2 = some (Except.ok jobs) →
        (jobs.map Doc.id).Nodup := by
  intro fuel
  induction fuel with
  | zero =>
    intro s h1 h2 jobs h
    simp [fetchLoop] at h
  | succ n ih =>
    intro s h1 h2 jobs h
    obtain ⟨hdone, hnext⟩ := fetchStep_invariant store s h1 h2
    cases hstep : fetchStep store s with
    | done j =>
      simp only [fetchLoop, hstep, Option.some.injEq, Except.ok.injEq] at h
      subst h
      exact hdone j hstep
    | fail e =>
      simp [fetchLoop, hstep] at h
    | next s2 =>
      simp only [fetchLoop, hstep] at h
      obtain ⟨hinv1, hinv2⟩ := hnext s2 hstep
      exact ih s2 hinv1 hinv2 jobs h

theorem fetchLoop_snd_done (store : Store) (s : FetchState) (fuel : Nat) (j : List Doc)
    (h : fetchStep store s = StepRes.done j) :
    (fetchLoop store (fuel + 1) s).2 = some (Except.ok j) := by
  simp [fetchLoop, h]

theorem fetchLoop_snd_next (store : Store) (s : FetchState) (fuel : Nat) (s2 : FetchState)
    (h : fetchStep store s = StepRes.next s2) :
    (fetchLoop store (fuel + 1) s).2 = (fetchLoop store fuel s2).2 := by
  simp [fetchLoop, h]

theorem fetchStep_allSeen (store : Store) (s : FetchState) (p : List Doc)
    (hst : store s.offset = Except.ok p) (hp : p.length ≠ 0)
    (hseen : ∀ d ∈ p, d.id ∈ s.seenIds) :
    (∃ j, fetchStep store s = StepRes.done j) ∨
      (fetchStep store s = StepRes.next
          ⟨s.allJobs, s.seenIds, s.offset + p.length, s.consecutiveEmptyOrDuplicate + 1⟩ ∧
        s.consecutiveEmptyOrDuplicate + 1 < 3) := by
  have hadd : addDocs s.seenIds s.allJobs 0 p = ⟨s.allJobs, s.seenIds, 0⟩ :=
    addDocs_of_forall_mem p s.seenIds s.allJobs 0 hseen
  rw [fetchStep_ok store s p hst, if_neg hp, hadd]
  have hz : (⟨s.allJobs, s.seenIds, 0⟩ : BatchResult).newDocsInBatch = 0 := rfl
  rw [if_pos hz]
  split_ifs with h1 h2 h3
  · exact Or.inl ⟨_, rfl⟩
  · exact Or.inl ⟨_, rfl⟩
  · exact Or.inl ⟨_, rfl⟩
  · exact Or.inr ⟨rfl, by omega⟩

theorem fetchStep_first (store : Store) (p : List Doc)
    (hst : store 0 = Except.ok p) (hp : p.length ≠ 0) :
    (∃ j, fetchStep store initState = StepRes.done j) ∨
      (∃ jobs seen, fetchStep store initState = StepRes.next ⟨jobs, seen, p.length, 0⟩ ∧
        ∀ d ∈ p, d.id ∈ seen) := by
  have hst0 : store initState.offset = Except.ok p := hst
  rw [fetchStep_ok store initState p hst0, if_neg hp]
  have hpos : 0 < (addDocs initState.seenIds initState.allJobs 0 p).newDocsInBatch := by
    apply addDocs_newCount_pos
    cases p with
    | nil => exact absurd rfl hp
    | cons d ds => exact ⟨d, List.mem_cons_self _ _, by simp [initState]⟩
  have hne0 : (addDocs initState.seenIds initState.allJobs 0 p).newDocsInBatch ≠ 0 := by omega
  rw [if_neg hne0, if_neg (by omega : ¬ (3:Nat) ≤ 0)]
  split_ifs with h2 h3
  · exact Or.inl ⟨_, rfl⟩
  · exact Or.inl ⟨_, rfl⟩
  · refine Or.inr ⟨(addDocs initState.seenIds initState.allJobs 0 p).allJobs,
      (addDocs initState.seenIds initState.allJobs 0 p).seenIds, ?_, ?_⟩
    · have hoff : initState.offset + p.length = p.length := Nat.zero_add _
      rw [hoff]
    · intro d hd
      exact addDocs_mem_seen p _ _ _ d hd

/-! ### Claims C1, C2, C7 -/

/-- C1: on a simulated remote store whose offset pagination endlessly returns
the same page regardless of offset, the fetch loop terminates normally within
4 iterations (the first batch plus the 3 consecutive batches that contribute
zero new records) for every fuel of at least 4, instead of looping forever. -/
theorem C1_fetch_terminates_on_repeating_store (store : Store) (p : List Doc) (fuel : Nat)
    (hconst : ∀ o, store o = Except.ok p) (hfuel : 4 ≤ fuel) :
    ∃ jobs, (fetchAllJobs store fuel).2 = some (Except.ok jobs) := by
  obtain ⟨k, rfl⟩ : ∃ k, fuel = k + 4 := ⟨fuel - 4, by omega⟩
  show ∃ jobs, (fetchLoop store (k + 4) initState).2 = some (Except.ok jobs)
  by_cases hp : p.length = 0
  · have hstep : fetchStep store initState = StepRes.done initState.allJobs := by
      rw [fetchStep_ok store initState p (hconst _), if_pos hp]
    exact ⟨initState.allJobs, fetchLoop_snd_done store initState (k + 3) _ hstep⟩
  · rcases fetchStep_first store p (hconst 0) hp with ⟨j, hdone⟩ | ⟨jobs1, seen1, hnext1, hseen1⟩
    · exact ⟨j, fetchLoop_snd_done store initState (k + 3) j hdone⟩
    · have h1 : (fetchLoop store (k + 4) initState).2
          = (fetchLoop store (k + 3) (⟨jobs1, seen1, p.length, 0⟩ : FetchState)).2 :=
        fetchLoop_snd_next store initState (k + 3) _ hnext1
      rcases fetchStep_allSeen store ⟨jobs1, seen1, p.length, 0⟩ p (hconst _) hp hseen1 with
        ⟨j, hdone⟩ | ⟨hnext2, hlt2⟩
      · exact ⟨j, by rw [h1]; exact fetchLoop_snd_done store _ (k + 2) j hdone⟩
      · have h2 : (fetchLoop store (k + 3) (⟨jobs1, seen1, p.length, 0⟩ : FetchState)).2
            = (fetchLoop store (k + 2)
                (⟨jobs1, seen1, p.length + p.length, 0 + 1⟩ : FetchState)).2 :=
          fetchLoop_snd_next store _ (k + 2) _ hnext2
        rcases fetchStep_allSeen store ⟨jobs1, seen1, p.length + p.length, 0 + 1⟩ p
            (hconst _) hp hseen1 with ⟨j, hdone⟩ | ⟨hnext3, hlt3⟩
        · exact ⟨j, by rw [h1, h2]; exact fetchLoop_snd_done store _ (k + 1) j hdone⟩
        · have h3 : (fetchLoop store (k + 2)
                (⟨jobs1, seen1, p.length + p.length, 0 + 1⟩ : FetchState)).2
              = (fetchLoop store (k + 1)
                (⟨jobs1, seen1, p.length + p.length + p.length, 0 + 1 + 1⟩ : FetchState)).2 :=
            fetchLoop_snd_next store _ (k + 1) _ hnext3
          rcases fetchStep_allSeen store
              ⟨jobs1, seen1, p.length + p.length + p.length, 0 + 1 + 1⟩ p
              (hconst _) hp hseen1 with ⟨j, hdone⟩ | ⟨_, hlt4⟩
          · exact ⟨j, by rw [h1, h2, h3]; exact fetchLoop_snd_done store _ k j hdone⟩
          · exfalso
            have hlt : (0 : Nat) + 1 + 1 + 1 < 3 := hlt4
            omega

/-- C1 witness: a store that always answers the same 3 records terminates
within fuel 4. -/
theorem C1_fetch_terminates_on_repeating_store_witness :
    ∃ jobs, (fetchAllJobs
      (fun _ => Except.ok [(⟨"1", some "s1", none, none⟩ : Doc),
        ⟨"2", some "s2", none, none⟩, ⟨"3", some "s3", none, none⟩]) 4).2
      = some (Except.ok jobs) :=
  C1_fetch_terminates_on_repeating_store
    (fun _ => Except.ok [(⟨"1", some "s1", none, none⟩ : Doc),
      ⟨"2", some "s2", none, none⟩, ⟨"3", some "s3", none, none⟩])
    [(⟨"1", some "s1", none, none⟩ : Doc), ⟨"2", some "s2", none, none⟩,
      ⟨"3", some "s3", none, none⟩]
    4 (fun _ => rfl) (by omega)

/-- C2: whatever pages the remote store returns, the collection the fetcher
terminates with contains each record id at most once. -/
theorem C2_fetch_dedup (store : Store) (fuel : Nat) (jobs : List Doc)
    (h : (fetchAllJobs store fuel).2 = some (Except.ok jobs)) :
    (jobs.map Doc.id).Nodup :=
  fetchLoop_nodup store fuel initState (by simp [initState]) (by simp [initState]) jobs h

/-- C2 witness: a store answering the overlapping pages [1,2,3] then [2,3,4]
yields exactly the 4 distinct records, with no id repeated. -/
theorem C2_fetch_dedup_witness :
    (fetchAllJobs (fun o =>
        if o = 0 then Except.ok [(⟨"1", some "s1", none, none⟩ : Doc),
          ⟨"2", some "s2", none, none⟩, ⟨"3", some "s3", none, none⟩]
        else if o = 3 then Except.ok [(⟨"2", some "s2", none, none⟩ : Doc),
          ⟨"3", some "s3", none, none⟩, ⟨"4", some "s4", none, none⟩]
        else Except.ok []) 10).2
      = some (Except.ok [(⟨"1", some "s1", none, none⟩ : Doc), ⟨"2", some "s2", none, none⟩,
          ⟨"3", some "s3", none, none⟩, ⟨"4", some "s4", none, none⟩]) ∧
    (([(⟨"1", some "s1", none, none⟩ : Doc), ⟨"2", some "s2", none, none⟩,
        ⟨"3", some "s3", none, none⟩, ⟨"4", some "s4", none, none⟩]).map Doc.id).Nodup ∧
    ([(⟨"1", some "s1", none, none⟩ : Doc), ⟨"2", some "s2", none, none⟩,
        ⟨"3", some "s3", none, none⟩, ⟨"4", some "s4", none, none⟩]).length = 4 :=
  ⟨by rfl,
    C2_fetch_dedup (fun o =>
        if o = 0 then Except.ok [(⟨"1", some "s1", none, none⟩ : Doc),
          ⟨"2", some "s2", none, none⟩, ⟨"3", some "s3", none, none⟩]
        else if o = 3 then Except.ok [(⟨"2", some "s2", none, none⟩ : Doc),
          ⟨"3", some "s3", none, none⟩, ⟨"4", some "s4", none, none⟩]
        else Except.ok []) 10 _ (by rfl),
    by decide⟩

/-- C7: after a successful non-empty batch, if the accumulated unique-job
count has reached 100000 or the advanced offset exceeds 200000, the loop
terminates normally in that iteration, returning the accumulated partial
result as final — it neither continues nor raises an error. -/
theorem C7_safety_ceilings (store : Store) (s : FetchState) (docs : List Doc)
    (hst : store s.offset = Except.ok docs) (hne : docs.length ≠ 0)
    (hlim : 100000 ≤ (addDocs s.seenIds s.allJobs 0 docs).allJobs.length ∨
      200000 < s.offset + docs.length) :
    fetchStep store s = StepRes.done (addDocs s.seenIds s.allJobs 0 docs).allJobs := by
  rw [fetchStep_ok store s docs hst, if_neg hne]
  split_ifs <;> first
    | rfl
    | (exfalso; rcases hlim with h | h <;> omega)

/-- C7 witness: a state whose offset has passed 200000 stops with the partial
result after the next successful batch. -/
theorem C7_safety_ceilings_witness :
    fetchStep (fun _ => Except.ok [(⟨"y", some "sy", none, none⟩ : Doc)])
        ⟨[⟨"x", some "sx", none, none⟩], ["x"], 200001, 0⟩
      = StepRes.done (addDocs ["x"] [⟨"x", some "sx", none, none⟩] 0
          [⟨"y", some "sy", none, none⟩]).allJobs :=
  C7_safety_ceilings (fun _ => Except.ok [(⟨"y", some "sy", none, none⟩ : Doc)])
    ⟨[⟨"x", some "sx", none, none⟩], ["x"], 200001, 0⟩
    [⟨"y", some "sy", none, none⟩] (by rfl) (by decide) (Or.inr (by decide))

end JobsSitemap
